import Mathlib

/-!
Verification of the activitywatch-exporter data pipeline: a shallow
embedding of `src/main.go` of rare-magma/activitywatch-exporter.

Modelling conventions:
* Go strings are modelled by `List Char` where the code operates on runes
  (`escapeTagValue` converts to `[]rune` before applying its length policy),
  and by Lean `String` where the code only concatenates (`fmt.Sprintf`).
* `strings.ReplaceAll` with a one-ASCII-character pattern coincides, on the
  rune view of a UTF-8 string, with code-point-wise substitution (an ASCII
  byte is never part of a multi-byte rune); it is modelled by `replaceAll`.
* HTTP transport outcomes are modelled by `Except Unit Nat`: either a
  transport-level error or a response carrying its status code (Go's
  `RoundTripper` contract: `err == nil` implies `resp != nil`).  The body
  bytes, headers and back-off sleeps are irrelevant to the verified
  properties and are not modelled.
* `json.Unmarshal` and `url.Parse` outcomes are supplied as `Option` inputs
  to the transcoding functions (the pipeline only branches on whether they
  succeeded and, for URLs, on the parsed host).
* The `%.3f` rendering of the float64 duration is abstracted as an opaque
  pre-rendered string: no verified property depends on its digits.
-/

namespace AWExporter

/-- Go constant `stringLimit = 1024` (src/main.go line 88). -/
def stringLimit : Nat := 1024

/-- Go constant `retryCount = 3` (src/main.go line 87). -/
def retryCount : Nat := 3

/-- Model of Go `strings.ReplaceAll` for a single-character pattern `old`,
on the rune view of the string: every occurrence of `old` is replaced by the
character sequence `new`. -/
def replaceAll (old : Char) (new : List Char) : List Char → List Char
  | [] => []
  | c :: cs => (if c = old then new else [c]) ++ replaceAll old new cs

/-- `escapeTagValue` from src/main.go lines 140-149:
commas, then equals signs, then spaces are prefixed with a backslash; if the
escaped string exceeds `stringLimit` runes it is cut to the first
`stringLimit - 3` runes and `...` is appended. -/
def escapeTagValue (value : List Char) : List Char :=
  let withoutCommas := replaceAll ',' ['\\', ','] value
  let withoutEquals := replaceAll '=' ['\\', '='] withoutCommas
  let escaped := replaceAll ' ' ['\\', ' '] withoutEquals
  if escaped.length ≤ stringLimit then escaped
  else escaped.take (stringLimit - 3) ++ ['.', '.', '.']

/-- The escaped string before the length policy is applied: the result of
the three sequential `strings.ReplaceAll` calls of `escapeTagValue`. -/
def escapedForm (value : List Char) : List Char :=
  replaceAll ' ' ['\\', ' '] (replaceAll '=' ['\\', '='] (replaceAll ',' ['\\', ','] value))

theorem escapeTagValue_def (value : List Char) :
    escapeTagValue value =
      if (escapedForm value).length ≤ stringLimit then escapedForm value
      else (escapedForm value).take (stringLimit - 3) ++ ['.', '.', '.'] := rfl

theorem replaceAll_append (old : Char) (new : List Char) (l₁ l₂ : List Char) :
    replaceAll old new (l₁ ++ l₂) = replaceAll old new l₁ ++ replaceAll old new l₂ := by
  induction l₁ with
  | nil => simp [replaceAll]
  | cons c cs ih => simp [replaceAll, ih]

theorem replaceAll_of_forall_ne (old : Char) (new : List Char) (l : List Char)
    (h : ∀ c ∈ l, c ≠ old) : replaceAll old new l = l := by
  induction l with
  | nil => rfl
  | cons c cs ih =>
      have hc : c ≠ old := h c (List.mem_cons_self c cs)
      simp [replaceAll, hc, ih fun x hx => h x (List.mem_cons_of_mem c hx)]

theorem escapedForm_replicate_a (n : Nat) :
    escapedForm (List.replicate n 'a') = List.replicate n 'a' := by
  have h : ∀ old : Char, 'a' ≠ old →
      replaceAll old ['\\', old] (List.replicate n 'a') = List.replicate n 'a' := by
    intro old hold
    exact replaceAll_of_forall_ne old _ _ fun c hc => by
      rw [List.eq_of_mem_replicate hc]; exact hold
  rw [escapedForm, h ',' (by decide), h '=' (by decide), h ' ' (by decide)]

/-- C2: the length policy of `escapeTagValue`.  If the escaped form of the
input has at most 1024 code points it is returned unchanged; if it exceeds
1024 code points, the result is exactly the first 1021 code points of the
escaped form followed by `...`, for a total of exactly 1024 code points
ending in `...`. -/
theorem escapeTagValue_length_policy (value : List Char) :
    ((escapedForm value).length ≤ 1024 → escapeTagValue value = escapedForm value) ∧
    (1024 < (escapedForm value).length →
      escapeTagValue value = (escapedForm value).take 1021 ++ ['.', '.', '.'] ∧
      (escapeTagValue value).length = 1024 ∧
      ['.', '.', '.'] <:+ escapeTagValue value) := by
  have hsl : stringLimit = 1024 := rfl
  constructor
  · intro h
    rw [escapeTagValue_def, hsl, if_pos h]
  · intro h
    have hn : ¬ (escapedForm value).length ≤ 1024 := by omega
    have he : escapeTagValue value = (escapedForm value).take 1021 ++ ['.', '.', '.'] := by
      rw [escapeTagValue_def, hsl, if_neg hn]
    refine ⟨he, ?_, ?_⟩
    · rw [he]
      simp only [List.length_append, List.length_take, List.length_cons, List.length_nil]
      omega
    · rw [he]
      exact List.suffix_append _ _


/-- Witness for C2 at concrete inputs: a short input is returned unchanged,
and an input of 1025 identical letters is clamped to 1024 code points. -/
theorem escapeTagValue_length_policy_witness :
    escapeTagValue ['a'] = escapedForm ['a'] ∧
    (escapeTagValue (List.replicate 1025 'a')).length = 1024 := by
  have h1025 : (escapedForm (List.replicate 1025 'a')).length = 1025 := by
    rw [escapedForm_replicate_a, List.length_replicate]
  exact ⟨(escapeTagValue_length_policy ['a']).1 (by decide),
    ((escapeTagValue_length_policy (List.replicate 1025 'a')).2 (by omega)).2.1⟩

/-- The three characters escaped by `escapeTagValue`, i.e. the characters
that act as delimiters in a line-protocol tag position. -/
def isDelim (c : Char) : Bool := c = ',' || c = '=' || c = ' '

/-- The per-code-point effect of the three sequential escaping passes of
`escapeTagValue`: a delimiter is prefixed with a backslash, everything else
is kept. -/
def enc (c : Char) : List Char := if isDelim c then ['\\', c] else [c]

theorem escapedForm_nil : escapedForm [] = [] := rfl

theorem escapedForm_cons (c : Char) (cs : List Char) :
    escapedForm (c :: cs) = enc c ++ escapedForm cs := by
  by_cases h1 : c = ','
  · subst h1
    simp [escapedForm, replaceAll, replaceAll_append, enc, isDelim]
  · by_cases h2 : c = '='
    · subst h2
      simp [escapedForm, replaceAll, replaceAll_append, enc, isDelim]
    · by_cases h3 : c = ' '
      · subst h3
        simp [escapedForm, replaceAll, replaceAll_append, enc, isDelim]
      · simp [escapedForm, replaceAll, replaceAll_append, enc, isDelim, h1, h2, h3]

/-- Prepend a character to the first token of a split result. -/
def cons1 (c : Char) : List (List Char) → List (List Char)
  | [] => [[c]]
  | t :: ts => (c :: t) :: ts

/-- Modelled from the spec: "the Escaper output, when re-split on unescaped
delimiters, recovers the original value".  Splitting a tag position on
unescaped delimiters while undoing the escapes: a backslash followed by a
delimiter is an escape pair contributing the bare delimiter to the current
token; an unescaped delimiter ends the current token; any other character
(including a backslash not followed by a delimiter) is kept verbatim. -/
def splitUnescaped : List Char → List (List Char)
  | [] => [[]]
  | c :: rest =>
    if c = '\\' then
      match rest with
      | [] => [['\\']]
      | d :: rest2 =>
        if isDelim d then cons1 d (splitUnescaped rest2)
        else cons1 '\\' (splitUnescaped (d :: rest2))
    else if isDelim c then [] :: splitUnescaped rest
    else cons1 c (splitUnescaped rest)

theorem splitUnescaped_nil : splitUnescaped [] = [[]] := rfl

theorem splitUnescaped_bs_delim (d : Char) (l : List Char) (h : isDelim d = true) :
    splitUnescaped ('\\' :: d :: l) = cons1 d (splitUnescaped l) := by
  simp [splitUnescaped, h]

theorem splitUnescaped_bs_nodelim (d : Char) (l : List Char) (h : isDelim d = false) :
    splitUnescaped ('\\' :: d :: l) = cons1 '\\' (splitUnescaped (d :: l)) := by
  simp [splitUnescaped, h]

theorem splitUnescaped_plain (c : Char) (l : List Char) (hbs : c ≠ '\\')
    (hd : isDelim c = false) :
    splitUnescaped (c :: l) = cons1 c (splitUnescaped l) := by
  rw [splitUnescaped.eq_def]
  simp [hbs, hd]

theorem splitUnescaped_escapedForm :
    ∀ (n : Nat) (v : List Char), v.length ≤ n → splitUnescaped (escapedForm v) = [v] := by
  intro n
  induction n with
  | zero =>
      intro v hv
      have : v = [] := List.length_eq_zero.mp (Nat.le_zero.mp hv)
      subst this
      rfl
  | succ n ih =>
      intro v hv
      match v with
      | [] => rfl
      | c :: cs =>
        rw [escapedForm_cons]
        by_cases hc : isDelim c = true
        · rw [enc, if_pos hc]
          show splitUnescaped ('\\' :: c :: escapedForm cs) = [c :: cs]
          rw [splitUnescaped_bs_delim c _ hc,
            ih cs (by simp at hv; omega)]
          rfl
        · have hcd : isDelim c = false := by simpa using hc
          rw [enc, if_neg (by simp [hcd])]
          by_cases hbs : c = '\\'
          · subst hbs
            show splitUnescaped ('\\' :: escapedForm cs) = ['\\' :: cs]
            match cs, hv with
            | [], _ => rfl
            | c' :: cs', hv =>
              rw [escapedForm_cons]
              by_cases hc' : isDelim c' = true
              · rw [enc, if_pos hc']
                show splitUnescaped ('\\' :: '\\' :: c' :: escapedForm cs') = _
                rw [splitUnescaped_bs_nodelim '\\' _ (by decide),
                  splitUnescaped_bs_delim c' _ hc',
                  ih cs' (by simp at hv; omega)]
                rfl
              · have hcd' : isDelim c' = false := by simpa using hc'
                rw [enc, if_neg (by simp [hcd'])]
                show splitUnescaped ('\\' :: c' :: escapedForm cs') = _
                rw [splitUnescaped_bs_nodelim c' _ hcd']
                have : c' :: escapedForm cs' = escapedForm (c' :: cs') := by
                  rw [escapedForm_cons, enc, if_neg (by simp [hcd'])]
                  rfl
                rw [this, ih (c' :: cs') (by simp at hv ⊢; omega)]
                rfl
          · show splitUnescaped (c :: escapedForm cs) = [c :: cs]
            rw [splitUnescaped_plain c _ hbs hcd,
              ih cs (by simp at hv; omega)]
            rfl

/-- C3 (amended): for every input whose escaped form stays within the
1024-code-point limit, the Escaper applies the three escaping passes in the
fixed order commas, equals signs, spaces, and splitting its output on
unescaped delimiters while undoing the escapes yields exactly the original
value as the single token.  (For longer inputs the truncation of C2 loses
the tail of the string, so recovery fails — see the counterexample.) -/
theorem escapeTagValue_roundTrip (value : List Char)
    (h : (escapedForm value).length ≤ 1024) :
    escapeTagValue value =
      replaceAll ' ' ['\\', ' '] (replaceAll '=' ['\\', '='] (replaceAll ',' ['\\', ','] value)) ∧
    splitUnescaped (escapeTagValue value) = [value] := by
  have he : escapeTagValue value = escapedForm value := by
    rw [escapeTagValue_def]
    exact if_pos h
  exact ⟨he, by rw [he]; exact splitUnescaped_escapedForm value.length value le_rfl⟩

/-- Witness for C3 at the concrete input `a,b c=d`: its escaped form is
within the limit and re-splitting the Escaper output recovers it. -/
theorem escapeTagValue_roundTrip_witness :
    (escapedForm ['a', ',', 'b', ' ', 'c', '=', 'd']).length ≤ 1024 ∧
    splitUnescaped (escapeTagValue ['a', ',', 'b', ' ', 'c', '=', 'd']) =
      [['a', ',', 'b', ' ', 'c', '=', 'd']] :=
  ⟨by decide, (escapeTagValue_roundTrip ['a', ',', 'b', ' ', 'c', '=', 'd'] (by decide)).2⟩

theorem cons1_length_le (c : Char) (S : List (List Char)) (m : Nat)
    (h : ∀ s ∈ S, s.length ≤ m) : ∀ t ∈ cons1 c S, t.length ≤ m + 1 := by
  match S with
  | [] =>
      intro t ht
      simp only [cons1, List.mem_singleton] at ht
      subst ht
      simp
  | s :: ss =>
      intro t ht
      simp only [cons1, List.mem_cons] at ht
      rcases ht with rfl | ht
      · simpa using Nat.add_le_add_right (h s (List.mem_cons_self s ss)) 1
      · exact Nat.le_succ_of_le (h t (List.mem_cons_of_mem s ht))

theorem splitUnescaped_single_bs : splitUnescaped ['\\'] = [['\\']] := rfl

/-- Every token produced by `splitUnescaped` is at most as long as the
input: undoing an escape consumes two input characters for one output
character, everything else one for one. -/
theorem splitUnescaped_token_length :
    ∀ (n : Nat) (l : List Char), l.length ≤ n →
      ∀ t ∈ splitUnescaped l, t.length ≤ l.length := by
  intro n
  induction n with
  | zero =>
      intro l hl
      have : l = [] := List.length_eq_zero.mp (Nat.le_zero.mp hl)
      subst this
      intro t ht
      simp only [splitUnescaped, List.mem_singleton] at ht
      simp [ht]
  | succ n ih =>
      intro l hl
      match l with
      | [] =>
          intro t ht
          simp only [splitUnescaped, List.mem_singleton] at ht
          simp [ht]
      | c :: rest =>
        by_cases hbs : c = '\\'
        · subst hbs
          match rest with
          | [] =>
              intro t ht
              simp only [splitUnescaped_single_bs, List.mem_singleton] at ht
              simp [ht]
          | d :: rest2 =>
            by_cases hd : isDelim d = true
            · rw [splitUnescaped_bs_delim d _ hd]
              intro t ht
              have hb := cons1_length_le d (splitUnescaped rest2) rest2.length
                (ih rest2 (by simp at hl; omega)) t ht
              simp only [List.length_cons]
              omega
            · rw [splitUnescaped_bs_nodelim d _ (by simpa using hd)]
              intro t ht
              have hb := cons1_length_le '\\' (splitUnescaped (d :: rest2)) (d :: rest2).length
                (ih (d :: rest2) (by simp at hl ⊢; omega)) t ht
              simp only [List.length_cons] at hb ⊢
              omega
        · by_cases hd : isDelim c = true
          · rw [splitUnescaped.eq_def]
            simp only [hbs, if_false, hd, if_true]
            intro t ht
            rcases List.mem_cons.mp ht with rfl | ht
            · simp
            · have := ih rest (by simp at hl; omega) t ht
              simp only [List.length_cons]
              omega
          · rw [splitUnescaped_plain c rest hbs (by simpa using hd)]
            intro t ht
            have hb := cons1_length_le c (splitUnescaped rest) rest.length
              (ih rest (by simp at hl; omega)) t ht
            simp only [List.length_cons]
            omega

theorem escapedForm_replicate_comma_length (n : Nat) :
    (escapedForm (List.replicate n ',')).length = 2 * n := by
  induction n with
  | zero => rfl
  | succ n ih =>
      rw [List.replicate_succ, escapedForm_cons, List.length_append, ih]
      simp [enc, isDelim]
      omega

/-- C3 counterexample: the claim quantifies over all input strings, but for
the 1025-comma input the escaped form exceeds the limit, `escapeTagValue`
truncates it to 1024 code points, and re-splitting cannot recover the
1025-character original. -/
theorem escapeTagValue_roundTrip_cex :
    splitUnescaped (escapeTagValue (List.replicate 1025 ',')) ≠
      [List.replicate 1025 ','] := by
  intro h
  have hlen : (escapeTagValue (List.replicate 1025 ',')).length = 1024 := by
    have h2050 : (escapedForm (List.replicate 1025 ',')).length = 2050 := by
      rw [escapedForm_replicate_comma_length]
    rw [escapeTagValue_def, if_neg (by rw [h2050]; decide)]
    simp only [List.length_append, List.length_take, h2050, List.length_cons,
      List.length_nil]
    rfl
  have hmem : List.replicate 1025 ',' ∈
      splitUnescaped (escapeTagValue (List.replicate 1025 ',')) := by
    rw [h]
    exact List.mem_singleton.mpr rfl
  have hle := splitUnescaped_token_length (escapeTagValue (List.replicate 1025 ',')).length
    _ le_rfl _ hmem
  rw [hlen, List.length_replicate] at hle
  omega

/-- `shouldRetry` from src/main.go lines 90-103, on the error/response pair
of a round trip (the error is `Option Unit`, the response is its status
code): retry on a transport error, on a missing response, and on the four
gateway/server statuses 500, 502, 503, 504. -/
def shouldRetry (err : Option Unit) (resp : Option Nat) : Bool :=
  if err.isSome then true
  else
    match resp with
    | none => true
    | some status => status == 500 || status == 502 || status == 503 || status == 504

/-- A round-trip outcome under Go's `RoundTripper` contract (`err == nil`
implies `resp != nil`): either a transport error or a response status. -/
def toParts : Except Unit Nat → Option Unit × Option Nat
  | .error e => (some e, none)
  | .ok status => (none, some status)

/-- `shouldRetry` applied to an outcome satisfying the transport contract. -/
def shouldRetryOutcome (o : Except Unit Nat) : Bool :=
  shouldRetry (toParts o).1 (toParts o).2

/-- The retry loop of `retryableTransport.RoundTrip` (src/main.go lines
105-131): while `shouldRetry` holds and fewer than `retryCount` retries were
made, re-issue the request.  `t n` is the outcome of the underlying
transport's n-th attempt.  The loop condition `retries < retryCount` is kept
verbatim; the structural `fuel` argument (maintained as
`retryCount - retries`) only makes the recursion structural and never cuts
the loop short.  Body replay and back-off sleeps are not modelled. -/
def roundTripAux (t : Nat → Except Unit Nat) : Nat → Nat → Except Unit Nat → Except Unit Nat
  | 0, _, cur => cur
  | fuel + 1, retries, cur =>
    if shouldRetryOutcome cur ∧ retries < retryCount then
      roundTripAux t fuel (retries + 1) (t (retries + 1))
    else cur

/-- `retryableTransport.RoundTrip`: first attempt, then the retry loop. -/
def roundTrip (t : Nat → Except Unit Nat) : Except Unit Nat :=
  roundTripAux t retryCount 0 (t 0)

theorem roundTripAux_step (t : Nat → Except Unit Nat) (fuel retries : Nat)
    (cur : Except Unit Nat) :
    roundTripAux t (fuel + 1) retries cur =
      if shouldRetryOutcome cur ∧ retries < retryCount then
        roundTripAux t fuel (retries + 1) (t (retries + 1))
      else cur := rfl

/-- C4: the Resilient Transport retries exactly on a transport error or a
response with status 500, 502, 503 or 504; any other status is returned
immediately; the result is always the outcome of some attempt `k ≤ 3` whose
predecessors all triggered a retry (and which, if the budget was not
exhausted, does not itself trigger one); and a transport answering 503, 503,
200 yields the 200 response with no error. -/
theorem roundTrip_retry_policy (t : Nat → Except Unit Nat) :
    (∀ o : Except Unit Nat, shouldRetryOutcome o = true ↔
      (o = .error () ∨ o = .ok 500 ∨ o = .ok 502 ∨ o = .ok 503 ∨ o = .ok 504)) ∧
    (shouldRetryOutcome (t 0) = false → roundTrip t = t 0) ∧
    (∃ k, k ≤ 3 ∧ roundTrip t = t k ∧
      (∀ i, i < k → shouldRetryOutcome (t i) = true) ∧
      (k < 3 → shouldRetryOutcome (t k) = false)) ∧
    roundTrip (fun n => if n < 2 then Except.ok 503 else Except.ok 200) = Except.ok 200 := by
  have hchar : ∀ o : Except Unit Nat, shouldRetryOutcome o = true ↔
      (o = .error () ∨ o = .ok 500 ∨ o = .ok 502 ∨ o = .ok 503 ∨ o = .ok 504) := by
    intro o
    match o with
    | .error () => simp [shouldRetryOutcome, shouldRetry, toParts]
    | .ok status =>
        simp only [shouldRetryOutcome, shouldRetry, toParts, Option.isSome_none,
          Bool.false_eq_true, if_false, Bool.or_eq_true, beq_iff_eq,
          Except.ok.injEq, reduceCtorEq, false_or]
        tauto
  have hstep : ∀ fuel retries cur, shouldRetryOutcome cur = true → retries < retryCount →
      roundTripAux t (fuel + 1) retries cur = roundTripAux t fuel (retries + 1) (t (retries + 1)) := by
    intro fuel retries cur h1 h2
    rw [roundTripAux_step, if_pos ⟨h1, h2⟩]
  have hstop : ∀ fuel retries cur, shouldRetryOutcome cur = false →
      roundTripAux t (fuel + 1) retries cur = cur := by
    intro fuel retries cur h1
    rw [roundTripAux_step, if_neg (by simp [h1])]
  have hmain : ∃ k, k ≤ 3 ∧ roundTrip t = t k ∧
      (∀ i, i < k → shouldRetryOutcome (t i) = true) ∧
      (k < 3 → shouldRetryOutcome (t k) = false) := by
    have hrc : retryCount = 2 + 1 := rfl
    by_cases h0 : shouldRetryOutcome (t 0) = true
    · by_cases h1 : shouldRetryOutcome (t 1) = true
      · by_cases h2 : shouldRetryOutcome (t 2) = true
        · refine ⟨3, le_refl 3, ?_, ?_, by omega⟩
          · rw [roundTrip, hrc, hstep 2 0 _ h0 (by rw [hrc]; omega),
              hstep 1 1 _ h1 (by rw [hrc]; omega), hstep 0 2 _ h2 (by rw [hrc]; omega)]
            rfl
          · intro i hi
            interval_cases i <;> assumption
        · refine ⟨2, by omega, ?_, ?_, fun _ => by simpa using h2⟩
          · rw [roundTrip, hrc, hstep 2 0 _ h0 (by rw [hrc]; omega),
              hstep 1 1 _ h1 (by rw [hrc]; omega), hstop 0 2 _ (by simpa using h2)]
          · intro i hi
            interval_cases i <;> assumption
      · refine ⟨1, by omega, ?_, ?_, fun _ => by simpa using h1⟩
        · rw [roundTrip, hrc, hstep 2 0 _ h0 (by rw [hrc]; omega),
            hstop 1 1 _ (by simpa using h1)]
        · intro i hi
          interval_cases i
          assumption
    · refine ⟨0, by omega, ?_, by omega, fun _ => by simpa using h0⟩
      rw [roundTrip, hrc, hstop 2 0 _ (by simpa using h0)]
  refine ⟨hchar, ?_, hmain, by rfl⟩
  intro h0
  rw [roundTrip, show retryCount = 2 + 1 from rfl]
  rw [roundTripAux_step, if_neg (by simp [h0])]

/-- Witness for C4: a transport that immediately answers 200 is not
retried, and the 503/503/200 transport (part of the theorem itself) is. -/
theorem roundTrip_retry_policy_witness :
    roundTrip (fun _ => Except.ok 200) = Except.ok 200 :=
  (roundTrip_retry_policy (fun _ => Except.ok 200)).2.1 (by decide)

/-- The possible final outcomes of the run after harvesting completes
(src/main.go lines 363-394): each `log.Fatal*` call, and normal exit. -/
inductive RunOutcome where
  | fatalNoData
  | fatalSendError
  | fatalStatus (body : String)
  | fatalErrors (n : Int)
  | success
deriving DecidableEq

/-- The final phase of `main` (src/main.go lines 363-394), as a function of
the aggregated payload, the outcome of the authenticated write POST (a
transport error or a status code with the response body), and the
accumulated `apiErrors` counter: an empty payload is fatal before anything
is sent; then a transport error is fatal; then any status other than 204 is
fatal reporting the body; then a positive failure counter is fatal
reporting it; otherwise the run succeeds.  (The gzip compression of the
payload cannot fail and is not modelled.) -/
def shipOutcome (payload : String) (upload : Except Unit (Nat × String))
    (apiErrors : Int) : RunOutcome :=
  if payload.length = 0 then .fatalNoData
  else
    match upload with
    | .error _ => .fatalSendError
    | .ok (status, body) =>
      if status ≠ 204 then .fatalStatus body
      else if apiErrors > 0 then .fatalErrors apiErrors
      else .success

/-- C5: an empty aggregated payload terminates the run fatally with the
"no data to send" condition, for every upload outcome and every value of
the failure counter — the check precedes the upload and never consults the
counter. -/
theorem emptyPayload_fatal (upload : Except Unit (Nat × String)) (apiErrors : Int) :
    shipOutcome "" upload apiErrors = RunOutcome.fatalNoData := rfl

/-- C6: the Batch Shipper treats exactly HTTP 204 as success: with a
nonempty payload, the run ends with the fatal "sending data" condition
reporting the response body precisely when the write POST answered a status
other than 204. -/
theorem non204_fatal (payload : String) (status : Nat) (body : String)
    (apiErrors : Int) (h : payload.length ≠ 0) :
    shipOutcome payload (.ok (status, body)) apiErrors = RunOutcome.fatalStatus body ↔
      status ≠ 204 := by
  constructor
  · intro hs h204
    subst h204
    rw [shipOutcome, if_neg h] at hs
    simp only [ne_eq, not_true_eq_false, if_false, reduceIte] at hs
    by_cases ha : apiErrors > 0
    · rw [if_pos ha] at hs
      exact RunOutcome.noConfusion hs
    · rw [if_neg ha] at hs
      exact RunOutcome.noConfusion hs
  · intro h204
    rw [shipOutcome, if_neg h]
    simp only [ne_eq, h204, not_false_eq_true, if_true, reduceIte]

/-- Witness for C6: a nonempty payload answered with 400 is fatal with the
body; answered with 204 it is not. -/
theorem non204_fatal_witness :
    (shipOutcome "m" (.ok (400, "oops")) 0 = RunOutcome.fatalStatus "oops") ∧
    shipOutcome "m" (.ok (204, "ok")) 0 ≠ RunOutcome.fatalStatus "ok" := by
  constructor
  · exact (non204_fatal "m" 400 "oops" 0 (by decide)).mpr (by decide)
  · intro hc
    exact absurd ((non204_fatal "m" 204 "ok" 0 (by decide)).mp hc) (by decide)

/-- C7: after a successful upload (status 204) of a nonempty payload, a
positive failure counter still ends the run in the fatal state reporting
that count, and the run succeeds exactly when the counter is zero (the
counter is only ever incremented, so it is non-negative). -/
theorem apiErrors_after_success (payload : String) (body : String) (apiErrors : Int)
    (hp : payload.length ≠ 0) (ha : 0 ≤ apiErrors) :
    (shipOutcome payload (.ok (204, body)) apiErrors = RunOutcome.success ↔ apiErrors = 0) ∧
    (0 < apiErrors →
      shipOutcome payload (.ok (204, body)) apiErrors = RunOutcome.fatalErrors apiErrors) := by
  have hbase : shipOutcome payload (.ok (204, body)) apiErrors =
      if apiErrors > 0 then RunOutcome.fatalErrors apiErrors else RunOutcome.success := by
    rw [shipOutcome, if_neg hp]
    simp only [ne_eq, not_true_eq_false, if_false, reduceIte]
  constructor
  · rw [hbase]
    by_cases h : apiErrors > 0
    · rw [if_pos h]
      constructor
      · intro hc
        exact absurd hc (by intro hc2; exact RunOutcome.noConfusion hc2)
      · intro h0
        omega
    · rw [if_neg h]
      constructor
      · intro _
        omega
      · intro _
        rfl
  · intro h
    rw [hbase, if_pos h]

/-- Witness for C7: with one accumulated failure the 204-uploaded run is
fatal reporting the count 1; with zero failures it succeeds. -/
theorem apiErrors_after_success_witness :
    shipOutcome "m" (.ok (204, "")) 1 = RunOutcome.fatalErrors 1 ∧
    shipOutcome "m" (.ok (204, "")) 0 = RunOutcome.success := by
  constructor
  · exact (apiErrors_after_success "m" "" 1 (by decide) (by decide)).2 (by decide)
  · exact (apiErrors_after_success "m" "" 0 (by decide) (by decide)).1.mpr rfl

/-- Go `%t` formatting of a bool. -/
def fmtBool (b : Bool) : String := if b then "true" else "false"

/-- `escapeTagValue` applied to the rune view of a Lean `String`. -/
def escapeTag (s : String) : String := String.mk (escapeTagValue s.data)

/-- The `cleanUrl` computation for a WebTab event (src/main.go lines
262-268): empty when the parsed URL has no host, otherwise `,url=` followed
by the host alone. -/
def webTabCleanUrl (host : String) : String :=
  if host = "" then "" else ",url=" ++ host

/-- The WebTab record format string (src/main.go lines 269-278):
`%s,client=%s,hostname=%s%s duration=%.3f,audible=%t,incognito=%t %v\n`
applied to the type, the raw client, the escaped hostname, `cleanUrl`, the
duration, the two bools and the unix-seconds timestamp. -/
def webTabLine (typ client hostname cleanUrl durStr : String)
    (audible incognito : Bool) (ts : Int) : String :=
  typ ++ ",client=" ++ client ++ ",hostname=" ++ escapeTag hostname ++ cleanUrl ++
    " duration=" ++ durStr ++ ",audible=" ++ fmtBool audible ++ ",incognito=" ++
    fmtBool incognito ++ " " ++ toString ts ++ "\n"

/-- Per-event WebTab transcoding (src/main.go lines 250-278).  `decoded` is
the `json.Unmarshal` outcome (URL, audible, incognito — the title is
unused); `parse` abstracts `url.Parse`, returning `none` on a parse error
and otherwise the parsed URL's host component (possibly empty).  A decode
or parse failure skips the event. -/
def transcodeWebTab (typ client hostname : String)
    (decoded : Option (String × Bool × Bool)) (parse : String → Option String)
    (durStr : String) (ts : Int) : Option String :=
  match decoded with
  | none => none
  | some (u, audible, incognito) =>
    match parse u with
    | none => none
    | some host =>
        some (webTabLine typ client hostname (webTabCleanUrl host) durStr audible incognito ts)

/-- The EditorActivity record format string (src/main.go lines 286-295). -/
def appEditorLine (typ client hostname project language file durStr : String)
    (ts : Int) : String :=
  typ ++ ",client=" ++ client ++ ",hostname=" ++ escapeTag hostname ++ ",project=" ++
    escapeTag project ++ ",language=" ++ escapeTag language ++ ",file=" ++ escapeTag file ++
    " duration=" ++ durStr ++ " " ++ toString ts ++ "\n"

/-- The WindowFocus record format string (src/main.go lines 303-310). -/
def currentWindowLine (typ client hostname app durStr : String) (ts : Int) : String :=
  typ ++ ",client=" ++ client ++ ",hostname=" ++ escapeTag hostname ++ ",app=" ++
    escapeTag app ++ " duration=" ++ durStr ++ " " ++ toString ts ++ "\n"

/-- The optional label tag of a Stopwatch record (src/main.go lines
318-324). -/
def stopwatchLabel (label : String) : String :=
  if label = "" then "" else ",label=" ++ escapeTag label

/-- The Stopwatch record format string (src/main.go lines 325-333). -/
def stopwatchLine (typ client hostname label durStr : String) (running : Bool)
    (ts : Int) : String :=
  typ ++ ",client=" ++ client ++ ",hostname=" ++ escapeTag hostname ++
    stopwatchLabel label ++ " duration=" ++ durStr ++ ",running=" ++ fmtBool running ++
    " " ++ toString ts ++ "\n"

/-- The AfkStatus record format string (src/main.go lines 341-348):
`%s,client=%s,hostname=%s duration=%.3f,status=\"%s\" %v\n` — the status is
interpolated between the double quotes as-is. -/
def afkLine (typ client hostname durStr status : String) (ts : Int) : String :=
  typ ++ ",client=" ++ client ++ ",hostname=" ++ escapeTag hostname ++ " duration=" ++
    durStr ++ ",status=\"" ++ status ++ "\" " ++ toString ts ++ "\n"

/-- Modelled from the spec: "all string tag values pass through the Escaper
first" — the WindowFocus rendering the claim describes, with the client tag
value also passed through the Escaper. -/
def specCurrentWindowLine (typ client hostname app durStr : String) (ts : Int) : String :=
  typ ++ ",client=" ++ escapeTag client ++ ",hostname=" ++ escapeTag hostname ++ ",app=" ++
    escapeTag app ++ " duration=" ++ durStr ++ " " ++ toString ts ++ "\n"

/-- Modelled from the spec: the `url` tag fragment the claim describes, with
the host passed through the Escaper. -/
def specWebTabCleanUrl (host : String) : String :=
  if host = "" then "" else ",url=" ++ escapeTag host

/-- C1 counterexample: a `currentwindow` event whose bucket client contains
a space is rendered with the client embedded raw, not through the Escaper,
so the rendering differs from the claimed one; likewise the WebTab `url`
fragment embeds the parsed host raw. -/
theorem tagEscaping_claim_cex :
    currentWindowLine "currentwindow" "a b" "desktop" "firefox" "25.523" 0 ≠
      specCurrentWindowLine "currentwindow" "a b" "desktop" "firefox" "25.523" 0 ∧
    webTabCleanUrl "h h" ≠ specWebTabCleanUrl "h h" := by
  decide

/-- C1 (amended): in every rendered record the hostname, project, language,
file, app and label tag values pass through the Tag Escaper before being
embedded, while the client tag value and the WebTab url host are embedded
raw; the WindowFocus rendering agrees with the fully-escaped one exactly
when escaping the client is the identity on it. -/
theorem tagEscaping_amended :
    (∀ typ client hostname cleanUrl durStr : String, ∀ audible incognito : Bool, ∀ ts : Int,
      webTabLine typ client hostname cleanUrl durStr audible incognito ts =
        typ ++ ",client=" ++ client ++ ",hostname=" ++ escapeTag hostname ++ cleanUrl ++
          " duration=" ++ durStr ++ ",audible=" ++ fmtBool audible ++ ",incognito=" ++
          fmtBool incognito ++ " " ++ toString ts ++ "\n") ∧
    (∀ host : String, webTabCleanUrl host = if host = "" then "" else ",url=" ++ host) ∧
    (∀ typ client hostname project language file durStr : String, ∀ ts : Int,
      appEditorLine typ client hostname project language file durStr ts =
        typ ++ ",client=" ++ client ++ ",hostname=" ++ escapeTag hostname ++ ",project=" ++
          escapeTag project ++ ",language=" ++ escapeTag language ++ ",file=" ++
          escapeTag file ++ " duration=" ++ durStr ++ " " ++ toString ts ++ "\n") ∧
    (∀ typ client hostname app durStr : String, ∀ ts : Int,
      currentWindowLine typ client hostname app durStr ts =
        typ ++ ",client=" ++ client ++ ",hostname=" ++ escapeTag hostname ++ ",app=" ++
          escapeTag app ++ " duration=" ++ durStr ++ " " ++ toString ts ++ "\n") ∧
    (∀ typ client hostname label durStr : String, ∀ running : Bool, ∀ ts : Int,
      stopwatchLine typ client hostname label durStr running ts =
        typ ++ ",client=" ++ client ++ ",hostname=" ++ escapeTag hostname ++
          stopwatchLabel label ++ " duration=" ++ durStr ++ ",running=" ++
          fmtBool running ++ " " ++ toString ts ++ "\n") ∧
    (∀ label : String,
      stopwatchLabel label = if label = "" then "" else ",label=" ++ escapeTag label) ∧
    (∀ typ client hostname durStr status : String, ∀ ts : Int,
      afkLine typ client hostname durStr status ts =
        typ ++ ",client=" ++ client ++ ",hostname=" ++ escapeTag hostname ++ " duration=" ++
          durStr ++ ",status=\"" ++ status ++ "\" " ++ toString ts ++ "\n") ∧
    (∀ typ client hostname app durStr : String, ∀ ts : Int,
      (currentWindowLine typ client hostname app durStr ts =
        specCurrentWindowLine typ client hostname app durStr ts ↔ escapeTag client = client)) := by
  refine ⟨fun _ _ _ _ _ _ _ _ => rfl, fun _ => rfl, fun _ _ _ _ _ _ _ _ => rfl,
    fun _ _ _ _ _ _ => rfl, fun _ _ _ _ _ _ _ => rfl, fun _ => rfl,
    fun _ _ _ _ _ _ => rfl, ?_⟩
  intro typ client hostname app durStr ts
  constructor
  · intro h
    have hd := congrArg String.data h
    simp only [currentWindowLine, specCurrentWindowLine, String.data_append,
      List.append_assoc] at hd
    have h1 := List.append_cancel_left hd
    have h2 := List.append_cancel_left h1
    have h3 := List.append_cancel_right h2
    exact (String.ext h3).symm
  · intro h
    simp only [currentWindowLine, specCurrentWindowLine, h]

/-- C8: for a WebTab event, a URL parse failure skips the event; a parsed
URL with an empty host yields a record with no `url` tag at all but with the
duration, audible and incognito fields; a non-empty host yields a record
whose `url` tag value is exactly the host. -/
theorem webTab_url_tag (typ client hostname durStr u : String)
    (audible incognito : Bool) (ts : Int) (parse : String → Option String) :
    (parse u = none →
      transcodeWebTab typ client hostname (some (u, audible, incognito)) parse durStr ts =
        none) ∧
    (parse u = some "" →
      transcodeWebTab typ client hostname (some (u, audible, incognito)) parse durStr ts =
        some (typ ++ ",client=" ++ client ++ ",hostname=" ++ escapeTag hostname ++
          " duration=" ++ durStr ++ ",audible=" ++ fmtBool audible ++ ",incognito=" ++
          fmtBool incognito ++ " " ++ toString ts ++ "\n")) ∧
    (∀ host : String, parse u = some host → host ≠ "" →
      transcodeWebTab typ client hostname (some (u, audible, incognito)) parse durStr ts =
        some (typ ++ ",client=" ++ client ++ ",hostname=" ++ escapeTag hostname ++
          ",url=" ++ host ++ " duration=" ++ durStr ++ ",audible=" ++ fmtBool audible ++
          ",incognito=" ++ fmtBool incognito ++ " " ++ toString ts ++ "\n")) := by
  refine ⟨?_, ?_, ?_⟩
  · intro h
    simp [transcodeWebTab, h]
  · intro h
    simp only [transcodeWebTab, h]
    refine congrArg some (String.ext ?_)
    simp [webTabLine, webTabCleanUrl, String.data_append, List.append_assoc]
  · intro host h hne
    simp only [transcodeWebTab, h]
    refine congrArg some (String.ext ?_)
    simp [webTabLine, webTabCleanUrl, hne, String.data_append, List.append_assoc]

/-- Witness for C8 at concrete events: a host-less URL renders without a
`url` tag, a URL with host `example.com` renders with `url=example.com`,
and a parse failure skips the event. -/
theorem webTab_url_tag_witness :
    transcodeWebTab "web.tab.current" "c" "h" (some ("about:blank", true, false))
      (fun _ => some "") "1.000" 0 =
      some "web.tab.current,client=c,hostname=h duration=1.000,audible=true,incognito=false 0\n" ∧
    transcodeWebTab "web.tab.current" "c" "h" (some ("http://example.com/x?q=1", true, false))
      (fun _ => some "example.com") "1.000" 0 =
      some "web.tab.current,client=c,hostname=h,url=example.com duration=1.000,audible=true,incognito=false 0\n" ∧
    transcodeWebTab "web.tab.current" "c" "h" (some ("%zz", true, false))
      (fun _ => none) "1.000" 0 = none := by
  refine ⟨?_, ?_, ?_⟩
  · rw [(webTab_url_tag "web.tab.current" "c" "h" "1.000" "about:blank" true false 0
      (fun _ => some "")).2.1 rfl]
    decide
  · rw [(webTab_url_tag "web.tab.current" "c" "h" "1.000" "http://example.com/x?q=1" true false 0
      (fun _ => some "example.com")).2.2 "example.com" rfl (by decide)]
    decide
  · exact (webTab_url_tag "web.tab.current" "c" "h" "1.000" "%zz" true false 0
      (fun _ => none)).1 rfl

/-- C10: the AfkStatus rendering interpolates the status value directly
between the double quotes of the `status` field, without any escaping and
without the Tag Escaper, so every character of the status — including
double quotes, backslashes, spaces and commas — appears verbatim inside the
quoted field. -/
theorem afkStatus_raw_interpolation :
    (∀ typ client hostname durStr status : String, ∀ ts : Int,
      afkLine typ client hostname durStr status ts =
        (typ ++ ",client=" ++ client ++ ",hostname=" ++ escapeTag hostname ++
          " duration=" ++ durStr ++ ",status=\"") ++ status ++
          ("\" " ++ toString ts ++ "\n")) ∧
    afkLine "afkstatus" "c" "h" "1.000" "a\"b\\c d,e" 0 =
      "afkstatus,client=c,hostname=h duration=1.000,status=\"a\"b\\c d,e\" 0\n" := by
  constructor
  · intro typ client hostname durStr status ts
    refine String.ext ?_
    simp [afkLine, String.data_append, List.append_assoc]
  · decide

end AWExporter
